import Mathlib

/-
Verification of the jsonrpc package (chowey/jsonrpc): a shallow embedding of
the JSON-RPC 2.0 server core, together with theorems about its behaviour.

Modelling conventions:
- Raw JSON bytes are modelled as `List Char`.  A decoded JSON value is a
  `Jval`; `rawOf v` is the byte rendering of `v` as the Go decoder's
  `json.RawMessage` would carry it (string escaping is not modelled, and a
  number literal carries its digit characters verbatim).
- Go's `json.RawMessage` for an absent member is a nil (empty) slice; an
  absent member is modelled as `none`, a present member as `some v`.
- Go interface values holding errors are modelled by `GoError`; a typed
  `*Error` pointer stored in an `error` interface is `GoError.rpc`, any other
  concrete error type with textual message `msg` is `GoError.other msg`.
- A Go panic (nil pointer dereference) is modelled as an explicit
  `panicked` outcome.
-/

namespace Jsonrpc

/-- The characters of the JSON literal `null`, as raw bytes. -/
def rawNull : List Char := ['n', 'u', 'l', 'l']

/-- The `\x7b` character (opening brace). -/
def lbrace : Char := Char.ofNat 123

/-- The `\x7d` character (closing brace). -/
def rbrace : Char := Char.ofNat 125

/-- A decoded JSON value.  A number carries its literal characters (the raw
token, e.g. `['1']`); a string carries its (unescaped) characters; object
keys are character lists. -/
inductive Jval where
  | null
  | bool (b : Bool)
  | num (ds : List Char)
  | str (s : List Char)
  | arr (elems : List Jval)
  | obj (fields : List (List Char × Jval))
deriving Repr

mutual

/-- Byte rendering of a JSON value: the bytes the Go decoder would hand over
as the `json.RawMessage` for this value. -/
def rawOf : Jval → List Char
  | .null => rawNull
  | .bool true => ['t', 'r', 'u', 'e']
  | .bool false => ['f', 'a', 'l', 's', 'e']
  | .num ds => ds
  | .str s => '"' :: (s ++ ['"'])
  | .arr es => '[' :: (rawOfList es ++ [']'])
  | .obj fs => lbrace :: (rawOfFields fs ++ [rbrace])

/-- Renders the comma-separated elements of a JSON array. -/
def rawOfList : List Jval → List Char
  | [] => []
  | [v] => rawOf v
  | v :: w :: vs => rawOf v ++ ',' :: rawOfList (w :: vs)

/-- Renders the comma-separated members of a JSON object. -/
def rawOfFields : List (List Char × Jval) → List Char
  | [] => []
  | [(k, v)] => '"' :: (k ++ '"' :: ':' :: rawOf v)
  | (k, v) :: f :: fs => '"' :: (k ++ '"' :: ':' :: rawOf v) ++ ',' :: rawOfFields (f :: fs)

end

mutual

/-- Well-formedness of a modelled JSON value: a number token is non-empty and
begins with a minus sign or a digit (as every JSON number literal does). -/
def Jval.wfB : Jval → Bool
  | .null => true
  | .bool _ => true
  | .num ds =>
    match ds with
    | [] => false
    | c :: _ => c = '-' || c.isDigit
  | .str _ => true
  | .arr es => Jval.wfListB es
  | .obj fs => Jval.wfFieldsB fs

/-- Well-formedness of every element of a JSON array. -/
def Jval.wfListB : List Jval → Bool
  | [] => true
  | v :: vs => v.wfB && Jval.wfListB vs

/-- Well-formedness of every member value of a JSON object. -/
def Jval.wfFieldsB : List (List Char × Jval) → Bool
  | [] => true
  | (_, v) :: fs => v.wfB && Jval.wfFieldsB fs

end

/-- A digit character is not the letter n. -/
theorem isDigit_ne_n {c : Char} (h : c.isDigit = true) : c ≠ 'n' := by
  intro hc
  rw [hc] at h
  exact absurd h (by decide)

/-- A well-formed JSON value renders to a non-empty byte string. -/
theorem rawOf_ne_nil {v : Jval} (h : v.wfB = true) : rawOf v ≠ [] := by
  cases v with
  | null => simp [rawOf, rawNull]
  | bool b => cases b <;> simp [rawOf]
  | num ds =>
    cases ds with
    | nil => simp [Jval.wfB] at h
    | cons c cs => simp [rawOf]
  | str s => simp [rawOf]
  | arr es => simp [rawOf]
  | obj fs => simp [rawOf]

/-- A well-formed JSON value other than `null` does not render to the bytes
of the literal `null`. -/
theorem rawOf_ne_rawNull {v : Jval} (h : v.wfB = true) (hv : v ≠ Jval.null) :
    rawOf v ≠ rawNull := by
  cases v with
  | null => exact absurd rfl hv
  | bool b => cases b <;> simp [rawOf, rawNull]
  | num ds =>
    cases ds with
    | nil => simp [Jval.wfB] at h
    | cons c cs =>
      simp [Jval.wfB] at h
      intro hc
      simp [rawOf, rawNull] at hc
      rcases h with h | h
      · rw [h] at hc; exact absurd hc.1 (by decide)
      · exact absurd hc.1 (isDigit_ne_n h)
  | str s =>
    intro hc
    simp [rawOf, rawNull] at hc
  | arr es =>
    intro hc
    simp [rawOf, rawNull] at hc
  | obj fs =>
    intro hc
    simp [rawOf, rawNull, lbrace] at hc

/-- The `Error` struct: a JSON-RPC 2.0 error with code, message and data.
`data` is modelled as the raw JSON bytes of the `Data` field (`none` is a Go
nil interface, serialized as JSON `null`). -/
structure Error where
  code : Int
  message : String
  data : Option (List Char)
deriving Repr, DecidableEq

/-- A non-nil Go `error` interface value: either dynamic type `*Error` (whose
pointer may itself be nil — the pathological case), or some other concrete
error type whose `Error()` method yields `msg`. -/
inductive GoError where
  | rpc (e : Option Error)
  | other (msg : String)
deriving Repr, DecidableEq

/-- The value found in the error position of a method's return list, together
with its declared (static) type: either the `error` interface (where `none`
is a nil interface), or the concrete pointer type `*Error` (where `none` is
a nil pointer). -/
inductive ErrOut where
  | iface (v : Option GoError)
  | ptrErr (v : Option Error)
deriving Repr, DecidableEq

/-- `reflect.Value.IsNil` on the error-position return value: a nil interface
or a nil pointer. -/
def ErrOut.IsNil : ErrOut → Bool
  | .iface none => true
  | .iface (some _) => false
  | .ptrErr none => true
  | .ptrErr (some _) => false

/-- `verr.Interface().(error)`: the Go error interface value extracted from
the error-position return value.  Only meaningful when `IsNil` is false (the
nil cases are unreachable in `method.call` and map to a dummy). -/
def ErrOut.interfaceErr : ErrOut → GoError
  | .iface (some e) => e
  | .iface none => GoError.rpc none
  | .ptrErr (some e) => GoError.rpc (some e)
  | .ptrErr none => GoError.rpc none

/-- A reflected Go type as the dispatcher observes it: whether it is
`context.Context`, whether it implements the `error` interface, and what
`json.Unmarshal` into a fresh value of it does on given raw bytes
(`Except.error msg` carries the json error text). -/
structure GoType where
  isContext : Bool
  implementsError : Bool
  unmarshal : List Char → Except String Unit

/-- A plain JSON-decodable type: not a context, not an error, and
unmarshalling always succeeds. -/
def plainType : GoType := ⟨false, false, fun _ => Except.ok ()⟩

/-- The reflected shape of a value passed to `newMethod`: whether it is a
function, its input types, variadicity (with the element type of the trailing
slice), and its return types. -/
structure FnShape where
  isFunc : Bool
  ins : List GoType
  isVariadic : Bool
  variadicElem : GoType
  outs : List GoType

/-- The dynamic behaviour of the registered function on one invocation:
`resultVal` is the first return value as a JSON-renderable value (`none` is a
Go nil, serialized as `null`); `errOut` is the last return value.  Each field
is only consulted when the method shape declares it. -/
structure FnBehavior where
  resultVal : Option Jval
  errOut : ErrOut

/-- The `method` descriptor built by `newMethod` (the source's `method`
struct), plus the dynamic behaviour `impl` standing for `reflect.Value.Call`
on the bound raw arguments. -/
structure Method where
  name : String
  hasContext : Bool
  nargs : Nat
  ins : List GoType
  variadic : Option GoType
  hasError : Bool
  hasResponse : Bool
  impl : List (List Char) → FnBehavior

/-- `newMethod`: inspect the callable and compute its descriptor, following
the source exactly: strip a leading `context.Context`, pop the trailing
variadic slice, then scan the return list right to left for an error return
and a result return, rejecting any further returns. -/
def newMethod (name : String) (fn : FnShape) (impl : List (List Char) → FnBehavior) :
    Except String Method :=
  if fn.isFunc = false then
    Except.error (name ++ ": cannot use type as a method")
  else
    let nargs0 := fn.ins.length
    let stripCtx := nargs0 > 0 && (fn.ins.headD plainType).isContext
    let hasContext := stripCtx
    let ins1 := if stripCtx then fn.ins.tail else fn.ins
    let nargs1 := if stripCtx then nargs0 - 1 else nargs0
    let variadic := if fn.isVariadic then some fn.variadicElem else none
    let ins2 := if fn.isVariadic then ins1.dropLast else ins1
    let nargs2 := if fn.isVariadic then nargs1 - 1 else nargs1
    let i1 : Int := (fn.outs.length : Int) - 1
    let hasError := 0 ≤ i1 && (fn.outs.getLastD plainType).implementsError
    let i2 : Int := if hasError then i1 - 1 else i1
    let hasResponse := decide (0 ≤ i2)
    let i3 : Int := if hasResponse then i2 - 1 else i2
    if 0 ≤ i3 then
      Except.error (name ++ ": too many output arguments for method")
    else
      Except.ok ⟨name, hasContext, nargs2, ins2, variadic, hasError, hasResponse, impl⟩

/-- `json.Unmarshal(params, &args)` where `args` is `[]json.RawMessage`:
succeeds on an array (yielding the elements' raw bytes) and on `null`
(leaving the slice nil); fails on every other JSON shape. -/
def unmarshalRawSlice : Jval → Option (List (List Char))
  | .arr es => some (es.map rawOf)
  | .null => some []
  | _ => none

/-- The argument-binding step of `method.call`: from the raw `params` member
(`none` when absent, which Go sees as a nil `json.RawMessage`) to the list of
raw positional argument bytes. -/
def bindArgs (params : Option Jval) : List (List Char) :=
  match params with
  | none => []
  | some v =>
    let raw := rawOf v
    if raw.length > 0 ∧ raw ≠ rawNull then
      match unmarshalRawSlice v with
      | some as => as
      | none => [raw]
    else []

/-- The target type for positional slot `i` in `method.call`: a fixed
positional type for `i < nargs`, the variadic element type beyond. -/
def Method.argType (m : Method) (i : Nat) : GoType :=
  if i < m.nargs then m.ins.getD i plainType else (m.variadic.getD plainType)

/-- The unmarshal loop of `method.call`: unmarshal each raw argument into its
target type in order, stopping at the first failure (returning its index and
json error text). -/
def unmarshalArgs (m : Method) : Nat → List (List Char) → Except (Nat × String) Unit
  | _, [] => Except.ok ()
  | i, a :: rest =>
    match (m.argType i).unmarshal a with
    | .error msg => Except.error (i, msg)
    | .ok _ => unmarshalArgs m (i + 1) rest

/-- The body of `method.call` after arity validation: unmarshal the bound
arguments, invoke the function, and extract `(result, error)`. -/
def Method.callBound (m : Method) (args : List (List Char)) :
    Except GoError (Option Jval) :=
  match unmarshalArgs m 0 args with
  | .error (i, msg) =>
    Except.error (GoError.rpc (some ⟨-32602, m.name ++ ": " ++ msg, some (args.getD i [])⟩))
  | .ok _ =>
    let outs := m.impl args
    if m.hasError && !outs.errOut.IsNil then
      Except.error outs.errOut.interfaceErr
    else if m.hasResponse then
      Except.ok outs.resultVal
    else
      Except.ok none

/-- `method.call`: bind the raw params, validate the arity, then unmarshal
and invoke.  An `Except.error` is the non-nil `err` return; `Except.ok r` is
`(r, nil)`. -/
def Method.call (m : Method) (params : Option Jval) : Except GoError (Option Jval) :=
  let args := bindArgs params
  match m.variadic with
  | some _ =>
    if args.length < m.nargs then
      Except.error (GoError.rpc (some
        ⟨-32602, m.name ++ ": require at least " ++ toString m.nargs ++ " params", none⟩))
    else m.callBound args
  | none =>
    if args.length ≠ m.nargs then
      Except.error (GoError.rpc (some
        ⟨-32602, m.name ++ ": require " ++ toString m.nargs ++ " params", none⟩))
    else m.callBound args

/-- The id carrier `jsonrpcID`: a byte slice, `none` being Go's nil slice
(the carrier was never written during decode, i.e. the member was absent). -/
abbrev jsonrpcID := Option (List Char)

/-- `jsonrpcID.MarshalJSON`: a nil carrier serializes as `null`; otherwise
the stored bytes are emitted verbatim. -/
def idMarshalJSON : jsonrpcID → List Char
  | none => rawNull
  | some bs => bs

/-- The first JSON token of a value is a string, a number or `null` — the id
shapes `jsonrpcID.UnmarshalJSON` accepts. -/
def recognizedIDShape : Jval → Bool
  | .str _ => true
  | .num _ => true
  | .null => true
  | _ => false

/-- `jsonrpcID.UnmarshalJSON` on the raw bytes of a decoded id value: verify
the leading token shape, then store the bytes verbatim in the carrier. -/
def idUnmarshalJSON (v : Jval) : Except String (List Char) :=
  if recognizedIDShape v then Except.ok (rawOf v)
  else Except.error ("\"id\" is not a valid type: " ++ String.mk (rawOf v))

/-- The accumulated `response` value of a request (the source's `response`
struct with its embedded `errorResponse`): protocol, id carrier, result and
error pointer. -/
structure Resp where
  protocol : String
  id : jsonrpcID
  result : Option Jval
  error : Option Error
deriving Repr

/-- Outcome of running `request.call`: either the final response value, or a
Go runtime panic (nil pointer dereference). -/
inductive DispatchOut where
  | ok (res : Resp)
  | panicked
deriving Repr

/-- `request.call`: invoke the bound method and map its `(result, err)` into
the response.  A non-nil error of dynamic type `*Error` with a non-nil
pointer passes through verbatim; any other error is wrapped as a −32603
internal error via `err.Error()` — which dereferences a nil `*Error` pointer
and panics. -/
def requestCall (m : Method) (reqID : jsonrpcID) (params : Option Jval) : DispatchOut :=
  match m.call params with
  | .ok result => DispatchOut.ok ⟨"2.0", reqID, result, none⟩
  | .error e =>
    match e with
    | .rpc (some er) => DispatchOut.ok ⟨"2.0", reqID, none, some er⟩
    | .rpc none => DispatchOut.panicked
    | .other msg => DispatchOut.ok ⟨"2.0", reqID, none, some ⟨-32603, msg, none⟩⟩

/-- A syntactically well-formed request object as decoded from the wire:
member values before `UnmarshalJSON` hooks run.  `id`/`params` are `none`
when the member is absent. -/
structure RawRequest where
  protocol : String
  id : Option Jval
  method : String
  params : Option Jval

/-- What `json.Decoder.Decode` finds on the stream for one request: end of
input, a lexical syntax error, some other read error, or a decodable request
object. -/
inductive DecodeResult where
  | eof
  | synErr (msg : String)
  | otherErr (msg : String)
  | decoded (r : RawRequest)

/-- A decode error as classified by the source: `io.EOF`, a
`*json.SyntaxError`, or any other error (which includes the id-shape error
raised by `jsonrpcID.UnmarshalJSON`). -/
inductive GoDecodeErr where
  | eofErr
  | syn (msg : String)
  | other (msg : String)

/-- The request struct after a successful `Decode`: the id carrier now holds
the raw id bytes (if the member was present). -/
structure DecodedReq where
  protocol : String
  id : jsonrpcID
  method : String
  params : Option Jval

/-- `dec.Decode(req)`: run the id member through `jsonrpcID.UnmarshalJSON`;
its failure surfaces as a non-syntax decode error. -/
def goDecode : DecodeResult → Except GoDecodeErr DecodedReq
  | .eof => Except.error GoDecodeErr.eofErr
  | .synErr m => Except.error (GoDecodeErr.syn m)
  | .otherErr m => Except.error (GoDecodeErr.other m)
  | .decoded r =>
    match r.id with
    | none => Except.ok ⟨r.protocol, none, r.method, r.params⟩
    | some v =>
      match idUnmarshalJSON v with
      | .ok bs => Except.ok ⟨r.protocol, some bs, r.method, r.params⟩
      | .error msg => Except.error (GoDecodeErr.other msg)

/-- The handler's registry: name → method descriptor. -/
abbrev Registry := List (String × Method)

/-- Registry lookup (`h.registry[req.Method]`). -/
def lookupMethod : Registry → String → Option Method
  | [], _ => none
  | (k, m) :: rest, name => if k = name then some m else lookupMethod rest name

/-- The request state after `decodeRequest`: the accumulated response, the
bound method (if resolution succeeded), and the decoded id and params. -/
structure ReqState where
  res : Resp
  m : Option Method
  id : jsonrpcID
  params : Option Jval

/-- `Handler.decodeRequest`: decode one value, then perform the protocol
checks.  The returned `Bool` is the source's return value (false when no
more values are available). -/
def decodeRequest (reg : Registry) (d : DecodeResult) : Bool × ReqState :=
  match goDecode d with
  | .error .eofErr =>
    (false, ⟨⟨"2.0", none, none, none⟩, none, none, none⟩)
  | .error (.syn msg) =>
    (false, ⟨⟨"2.0", some rawNull, none, some ⟨-32700, msg, none⟩⟩, none, none, none⟩)
  | .error (.other msg) =>
    (false, ⟨⟨"2.0", some rawNull, none, some ⟨-32600, msg, none⟩⟩, none, none, none⟩)
  | .ok r =>
    if r.protocol ≠ "2.0" then
      (true, ⟨⟨"2.0", r.id, none,
        some ⟨-32600, "Invalid protocol: expected jsonrpc: 2.0", none⟩⟩, none, r.id, r.params⟩)
    else
      match lookupMethod reg r.method with
      | none =>
        (true, ⟨⟨"2.0", r.id, none,
          some ⟨-32601, "No such method: " ++ r.method, none⟩⟩, none, r.id, r.params⟩)
      | some m => (true, ⟨⟨"2.0", r.id, none, none⟩, some m, r.id, r.params⟩)

/-- An emitted JSON-RPC response body: the object's key/value pairs in
serialization order, values as raw JSON bytes. -/
abbrev Body := List (String × List Char)

/-- Serialization of an `*Error` value.  `Data` has no `omitempty`, so a nil
data serializes as the member `data` with value `null`. -/
def encodeError (e : Error) : List Char :=
  lbrace :: ("\"code\":".toList ++ (toString e.code).toList
    ++ ",\"message\":\"".toList ++ e.message.toList
    ++ "\",\"data\":".toList
    ++ (match e.data with | none => rawNull | some d => d)) ++ [rbrace]

/-- Serialization of the embedded `errorResponse` struct: `jsonrpc`, `id`
and — because of `omitempty` on the `*Error` field — an `error` member only
when the pointer is non-nil. -/
def encodeErrorResponse (res : Resp) : Body :=
  [("jsonrpc", '"' :: (res.protocol.toList ++ ['"'])), ("id", idMarshalJSON res.id)]
    ++ (match res.error with | some e => [("error", encodeError e)] | none => [])

/-- Serialization of the full `response` struct: the embedded
`errorResponse` members followed by the `result` member, which has no
`omitempty` and therefore always appears (a nil result as `null`). -/
def encodeFullResponse (res : Resp) : Body :=
  [("jsonrpc", '"' :: (res.protocol.toList ++ ['"'])), ("id", idMarshalJSON res.id)]
    ++ (match res.error with | some e => [("error", encodeError e)] | none => [])
    ++ [("result", match res.result with | none => rawNull | some v => rawOf v)]

/-- The emission branch shared by `ServeHTTP` and `ServeConn.send`: an error
response is encoded through the embedded `errorResponse` (so no `result`
member), a success through the full `response`. -/
def emitResponse (res : Resp) : Body :=
  if res.error.isSome then encodeErrorResponse res else encodeFullResponse res

/-- Looks up the value of a key in an emitted body. -/
def lookupKey (k : String) : Body → Option (List Char)
  | [] => none
  | (k2, v) :: rest => if k2 = k then some v else lookupKey k rest

/-- Whether an emitted body contains a member with the given key. -/
def hasKey (k : String) (b : Body) : Bool :=
  b.any (fun kv => kv.1 == k)

/-- An HTTP request as `ServeHTTP` observes it: the HTTP method, the
`Content-Type` header value, and what decoding its body yields. -/
structure HttpRequest where
  method : String
  contentType : String
  body : DecodeResult

/-- What `ServeHTTP` writes back: a status code with an optional JSON-RPC
body (plain-text transport errors carry no JSON-RPC body), or a panic. -/
inductive HttpOut where
  | reply (status : Nat) (body : Option Body)
  | panicked
deriving Repr, DecidableEq

/-- The dispatch step of both servers: call the bound method.  A nil bound
method would be a nil pointer dereference (unreachable: the decode step
always sets an error or binds a method). -/
def dispatch (st : ReqState) : DispatchOut :=
  match st.m with
  | none => DispatchOut.panicked
  | some m => requestCall m st.id st.params

/-- The body of `Handler.ServeHTTP` after the transport gates: decode one
request (turning end-of-input into a −32600 `EOF` invalid-request error with
id bytes `null`), dispatch unless a protocol error is already recorded, and
reply 204 with no body when the id carrier is still nil, otherwise 200 with
the encoded response. -/
def serveDecoded (reg : Registry) (d : DecodeResult) : HttpOut :=
  let dec := decodeRequest reg d
  let st := dec.2
  let st :=
    if dec.1 = false ∧ st.res.error = none then
      ⟨⟨st.res.protocol, some rawNull, st.res.result, some ⟨-32600, "EOF", none⟩⟩,
        st.m, st.id, st.params⟩
    else st
  match (if st.res.error = none then dispatch st else DispatchOut.ok st.res) with
  | .panicked => HttpOut.panicked
  | .ok res =>
    if res.id = none then HttpOut.reply 204 none
    else HttpOut.reply 200 (some (emitResponse res))

/-- `Handler.ServeHTTP`: gate on Content-Type then on the HTTP method, then
run the decode/dispatch/emit pipeline on the body. -/
def serveHTTP (reg : Registry) (r : HttpRequest) : HttpOut :=
  if r.contentType ≠ "application/json" then HttpOut.reply 415 none
  else if r.method ≠ "POST" then HttpOut.reply 405 none
  else serveDecoded reg r.body

/-- What the stream server does with one decoded value: send a response
frame, stay silent, or panic in the worker. -/
inductive ConnOut where
  | send (b : Body)
  | silent
  | panicked
deriving Repr, DecidableEq

/-- The frame emitted by a `ConnOut`, if any. -/
def ConnOut.emitted : ConnOut → Option Body
  | .send b => some b
  | _ => none

/-- One iteration of the `ServeConn` loop on one decoded value: when decoding
reports no more values, send the recorded error if there is one (parse
errors are sent "just to be safe") and stop; otherwise run the worker, which
dispatches unless an error is recorded and drops the response when the id
carrier is nil. -/
def serveConnStep (reg : Registry) (d : DecodeResult) : ConnOut :=
  let dec := decodeRequest reg d
  let st := dec.2
  if dec.1 = false then
    match st.res.error with
    | some _ => ConnOut.send (emitResponse st.res)
    | none => ConnOut.silent
  else
    match (if st.res.error = none then dispatch st else DispatchOut.ok st.res) with
    | .panicked => ConnOut.panicked
    | .ok res =>
      if res.id = none then ConnOut.silent
      else ConnOut.send (emitResponse res)

/-! ### Helper lemmas -/

/-- The arity check of `method.call`, as a predicate on the bound argument
list: a variadic method requires at least `nargs` arguments, a non-variadic
method exactly `nargs`. -/
def arityOkB (m : Method) (args : List (List Char)) : Bool :=
  match m.variadic with
  | some _ => decide (m.nargs ≤ args.length)
  | none => decide (args.length = m.nargs)

/-- When the arity check passes, `method.call` proceeds to the unmarshal and
invoke stage on the bound arguments. -/
theorem call_eq_callBound (m : Method) (params : Option Jval)
    (h : arityOkB m (bindArgs params) = true) :
    m.call params = m.callBound (bindArgs params) := by
  unfold Method.call
  unfold arityOkB at h
  cases hv : m.variadic with
  | some t =>
    rw [hv] at h
    simp only [decide_eq_true_eq] at h
    simp [Nat.not_lt.mpr h]
  | none =>
    rw [hv] at h
    simp only [decide_eq_true_eq] at h
    simp [h]

/-- Both encoders emit the stored id carrier bytes under the key `id`. -/
theorem lookupKey_id_emit (res : Resp) :
    lookupKey "id" (emitResponse res) = some (idMarshalJSON res.id) := by
  cases h : res.error <;>
    simp [emitResponse, h, encodeErrorResponse, encodeFullResponse, lookupKey]

/-- `request.call` either panics or produces a response that echoes the
protocol and the request id. -/
theorem requestCall_shape (m : Method) (reqID : jsonrpcID) (params : Option Jval) :
    requestCall m reqID params = DispatchOut.panicked ∨
    ∃ result error, requestCall m reqID params = DispatchOut.ok ⟨"2.0", reqID, result, error⟩ := by
  unfold requestCall
  cases m.call params with
  | ok r => exact Or.inr ⟨r, none, rfl⟩
  | error e =>
    cases e with
    | rpc oe =>
      cases oe with
      | none => exact Or.inl rfl
      | some er => exact Or.inr ⟨none, some er, rfl⟩
    | other msg => exact Or.inr ⟨none, some ⟨-32603, msg, none⟩, rfl⟩

/-- The unmarshal loop fails at the first failing argument, reporting its
index and error text. -/
theorem unmarshalArgs_first_fail (m : Method) :
    ∀ (args : List (List Char)) (k i : Nat) (msg : String),
      i < args.length →
      (∀ j, j < i → (m.argType (k + j)).unmarshal (args.getD j []) = Except.ok ()) →
      (m.argType (k + i)).unmarshal (args.getD i []) = Except.error msg →
      unmarshalArgs m k args = Except.error (k + i, msg) := by
  intro args
  induction args with
  | nil => intro k i msg hlt; simp at hlt
  | cons a rest ih =>
    intro k i msg hlt hok hfail
    cases i with
    | zero =>
      simp only [List.getD_cons_zero, Nat.add_zero] at hfail
      unfold unmarshalArgs
      rw [hfail]
      simp
    | succ i2 =>
      have h0 : (m.argType k).unmarshal a = Except.ok () := by
        have := hok 0 (Nat.succ_pos i2)
        simpa using this
      unfold unmarshalArgs
      rw [h0]
      have hrec := ih (k + 1) i2 msg (by simpa using Nat.lt_of_succ_lt_succ hlt)
        (fun j hj => by
          have := hok (j + 1) (Nat.succ_lt_succ hj)
          simpa [Nat.add_assoc, Nat.add_comm 1 j] using this)
        (by
          have heq : k + 1 + i2 = k + (i2 + 1) := by omega
          rw [heq]
          simpa using hfail)
      rw [hrec]
      have heq : k + 1 + i2 = k + (i2 + 1) := by omega
      rw [heq]

/-! ### Claims -/

/-- C9: For every HTTP POST with correct Content-Type whose body is empty
(EOF before any JSON value), the adapter responds 200 with a body carrying
the error form with code −32600 and message `EOF`, and id `null`. -/
theorem c9_empty_body_eof (reg : Registry) :
    serveHTTP reg ⟨"POST", "application/json", DecodeResult.eof⟩ =
      HttpOut.reply 200 (some
        [("jsonrpc", '"' :: ("2.0".toList ++ ['"'])),
         ("id", rawNull),
         ("error", encodeError ⟨-32600, "EOF", none⟩)]) := rfl

/-- C4 counterexample: an HTTP request whose method is GET (not POST) but
whose Content-Type is also wrong is answered with status 415, not the 405
the claim demands for every non-POST request — the Content-Type gate runs
first. -/
theorem c4_gate_order_cex :
    "GET" ≠ "POST" ∧
    serveHTTP [] ⟨"GET", "text/plain", DecodeResult.eof⟩ = HttpOut.reply 415 none ∧
    HttpOut.reply 415 none ≠ HttpOut.reply 405 none := by
  refine ⟨by decide, rfl, by decide⟩

/-- C4 (amended): the adapter checks Content-Type first: any request whose
Content-Type is not exactly `application/json` gets status 415 regardless of
its HTTP method; a request with the correct Content-Type and a method other
than POST gets status 405; in both cases no JSON-RPC body is produced. -/
theorem c4_http_gate (reg : Registry) (r : HttpRequest) :
    (r.contentType ≠ "application/json" → serveHTTP reg r = HttpOut.reply 415 none) ∧
    (r.contentType = "application/json" → r.method ≠ "POST" →
      serveHTTP reg r = HttpOut.reply 405 none) := by
  constructor
  · intro h
    simp [serveHTTP, h]
  · intro hct hm
    simp [serveHTTP, hct, hm]

/-- C4 witness: the amended gate evaluated at concrete requests. -/
theorem c4_http_gate_witness :
    serveHTTP [] ⟨"GET", "application/json", DecodeResult.eof⟩ = HttpOut.reply 405 none ∧
    serveHTTP [] ⟨"POST", "text/plain", DecodeResult.eof⟩ = HttpOut.reply 415 none :=
  ⟨(c4_http_gate [] ⟨"GET", "application/json", DecodeResult.eof⟩).2 rfl (by decide),
   (c4_http_gate [] ⟨"POST", "text/plain", DecodeResult.eof⟩).1 (by decide)⟩

/-- A single emitted response never carries both a `result` and an `error`
member: the error branch encodes through the embedded `errorResponse`, and
the success branch omits the nil error pointer. -/
theorem emit_exclusive (res : Resp) :
    ¬(hasKey "result" (emitResponse res) = true ∧ hasKey "error" (emitResponse res) = true) := by
  intro hc
  obtain ⟨h1, h2⟩ := hc
  cases h : res.error <;>
    simp [emitResponse, h, encodeErrorResponse, encodeFullResponse, hasKey] at h1 h2

/-- C8: Every JSON-RPC response body emitted, over HTTP or over the stream
server, contains either a `result` key or an `error` key but never both. -/
theorem c8_result_error_exclusive :
    (∀ (reg : Registry) (r : HttpRequest) (st : Nat) (b : Body),
      serveHTTP reg r = HttpOut.reply st (some b) →
      ¬(hasKey "result" b = true ∧ hasKey "error" b = true)) ∧
    (∀ (reg : Registry) (d : DecodeResult) (b : Body),
      serveConnStep reg d = ConnOut.send b →
      ¬(hasKey "result" b = true ∧ hasKey "error" b = true)) := by
  constructor
  · intro reg r st b h
    simp only [serveHTTP] at h
    split at h
    · simp at h
    · split at h
      · simp at h
      · simp only [serveDecoded] at h
        split at h
        · simp at h
        · rename_i res hok
          split at h
          · simp at h
          · simp only [HttpOut.reply.injEq, Option.some.injEq] at h
            rw [← h.2]
            exact emit_exclusive res
  · intro reg d b h
    simp only [serveConnStep] at h
    split at h
    · split at h
      · simp only [ConnOut.send.injEq] at h
        rw [← h]
        exact emit_exclusive _
      · simp at h
    · split at h
      · simp at h
      · rename_i res hok
        split at h
        · simp at h
        · simp only [ConnOut.send.injEq] at h
          rw [← h]
          exact emit_exclusive res

/-- C8 witness: a concrete HTTP run emitting a body, on which exclusivity is
checked. -/
theorem c8_result_error_exclusive_witness :
    serveHTTP [] ⟨"POST", "application/json", DecodeResult.eof⟩ =
      HttpOut.reply 200 (some
        [("jsonrpc", '"' :: ("2.0".toList ++ ['"'])),
         ("id", rawNull),
         ("error", encodeError ⟨-32600, "EOF", none⟩)]) ∧
    ¬(hasKey "result"
        [("jsonrpc", '"' :: ("2.0".toList ++ ['"'])),
         ("id", rawNull),
         ("error", encodeError ⟨-32600, "EOF", none⟩)] = true ∧
      hasKey "error"
        [("jsonrpc", '"' :: ("2.0".toList ++ ['"'])),
         ("id", rawNull),
         ("error", encodeError ⟨-32600, "EOF", none⟩)] = true) :=
  ⟨rfl, c8_result_error_exclusive.1 [] ⟨"POST", "application/json", DecodeResult.eof⟩ 200 _ rfl⟩

/-- C6: A non-variadic method called with a bound argument list of the wrong
length answers −32602 with message `{name}: require {N} params`; a variadic
method with fewer than `N` arguments answers −32602 with message
`{name}: require at least {N} params`; in both cases the result does not
depend on the function body, which is never invoked. -/
theorem c6_arity_errors (m : Method) (params : Option Jval) :
    (m.variadic = none → (bindArgs params).length ≠ m.nargs →
      m.call params = Except.error (GoError.rpc (some
        ⟨-32602, m.name ++ ": require " ++ toString m.nargs ++ " params", none⟩)) ∧
      ∀ g, Method.call
        ⟨m.name, m.hasContext, m.nargs, m.ins, m.variadic, m.hasError, m.hasResponse, g⟩
        params = m.call params) ∧
    (∀ t, m.variadic = some t → (bindArgs params).length < m.nargs →
      m.call params = Except.error (GoError.rpc (some
        ⟨-32602, m.name ++ ": require at least " ++ toString m.nargs ++ " params", none⟩)) ∧
      ∀ g, Method.call
        ⟨m.name, m.hasContext, m.nargs, m.ins, m.variadic, m.hasError, m.hasResponse, g⟩
        params = m.call params) := by
  constructor
  · intro hv hne
    constructor
    · unfold Method.call
      rw [hv]
      simp [hne]
    · intro g
      unfold Method.call
      simp only [hv]
      simp [hne]
  · intro t hv hlt
    constructor
    · unfold Method.call
      rw [hv]
      simp [hlt]
    · intro g
      unfold Method.call
      simp only [hv]
      simp [hlt]

/-- C6 witness: a unary non-variadic method with two arguments, and a
variadic method of minimum arity one with none. -/
theorem c6_arity_errors_witness :
    (Method.call ⟨"echo", false, 1, [plainType], none, false, true,
        fun _ => ⟨none, ErrOut.iface none⟩⟩
        (some (Jval.arr [Jval.str ['a'], Jval.str ['b']])) =
      Except.error (GoError.rpc (some ⟨-32602, "echo: require 1 params", none⟩))) ∧
    (Method.call ⟨"prefixecho", false, 1, [plainType], some plainType, false, true,
        fun _ => ⟨none, ErrOut.iface none⟩⟩
        (some (Jval.arr [])) =
      Except.error (GoError.rpc (some ⟨-32602, "prefixecho: require at least 1 params", none⟩))) := by
  constructor
  · exact ((c6_arity_errors _ _).1 rfl (by decide)).1
  · exact ((c6_arity_errors _ _).2 plainType rfl (by decide)).1

/-- C2: If a method whose declared last return type is the `error` interface
returns a non-nil interface value wrapping a nil concrete `*Error` pointer,
the dispatcher panics instead of emitting a response (the −32603 wrapping
path calls `err.Error()`, which dereferences the nil pointer). -/
theorem c2_nil_error_panics (m : Method) (reqID : jsonrpcID) (params : Option Jval)
    (harity : arityOkB m (bindArgs params) = true)
    (hunm : unmarshalArgs m 0 (bindArgs params) = Except.ok ())
    (herr : m.hasError = true)
    (himpl : (m.impl (bindArgs params)).errOut = ErrOut.iface (some (GoError.rpc none))) :
    requestCall m reqID params = DispatchOut.panicked := by
  unfold requestCall
  rw [call_eq_callBound m params harity]
  unfold Method.callBound
  rw [hunm]
  simp [himpl, herr, ErrOut.IsNil, ErrOut.interfaceErr]

/-- C2 witness: the test suite's `nil.error` method, which declares returns
`(string, error)` and returns a typed nil `*Error`. -/
theorem c2_nil_error_panics_witness :
    requestCall
      ⟨"nil.error", false, 0, [], none, true, true,
        fun _ => ⟨some (Jval.str "Hello world!".toList), ErrOut.iface (some (GoError.rpc none))⟩⟩
      (some ['3']) none = DispatchOut.panicked :=
  c2_nil_error_panics _ (some ['3']) none rfl rfl rfl rfl

/-- C3: A dispatched call whose method returns a non-nil error maps it as
follows: a dynamic `*Error` (whether stored in an `error` interface or
declared as concrete `*Error`) passes into the response verbatim; any other
error type is wrapped as code −32603 with the error's textual message. -/
theorem c3_user_error_mapping (m : Method) (reqID : jsonrpcID) (params : Option Jval)
    (harity : arityOkB m (bindArgs params) = true)
    (hunm : unmarshalArgs m 0 (bindArgs params) = Except.ok ())
    (herr : m.hasError = true) :
    (∀ e, (m.impl (bindArgs params)).errOut = ErrOut.iface (some (GoError.rpc (some e))) →
      requestCall m reqID params = DispatchOut.ok ⟨"2.0", reqID, none, some e⟩) ∧
    (∀ e, (m.impl (bindArgs params)).errOut = ErrOut.ptrErr (some e) →
      requestCall m reqID params = DispatchOut.ok ⟨"2.0", reqID, none, some e⟩) ∧
    (∀ msg, (m.impl (bindArgs params)).errOut = ErrOut.iface (some (GoError.other msg)) →
      requestCall m reqID params = DispatchOut.ok ⟨"2.0", reqID, none, some ⟨-32603, msg, none⟩⟩) := by
  refine ⟨fun e himpl => ?_, fun e himpl => ?_, fun msg himpl => ?_⟩ <;>
    (unfold requestCall
     rw [call_eq_callBound m params harity]
     unfold Method.callBound
     rw [hunm]
     simp [himpl, herr, ErrOut.IsNil, ErrOut.interfaceErr])

/-- C3 witness: a method returning a custom `Error` verbatim and a method
returning a plain error wrapped as −32603, mirroring the test suite's
`error` method. -/
theorem c3_user_error_mapping_witness :
    (requestCall
      ⟨"bad", false, 0, [], none, true, false,
        fun _ => ⟨none, ErrOut.iface (some (GoError.rpc (some ⟨101, "This endpoint is bad.", none⟩)))⟩⟩
      (some rawNull) none =
      DispatchOut.ok ⟨"2.0", some rawNull, none, some ⟨101, "This endpoint is bad.", none⟩⟩) ∧
    (requestCall
      ⟨"error", false, 0, [], none, true, false,
        fun _ => ⟨none, ErrOut.iface (some (GoError.other "custom error"))⟩⟩
      (some rawNull) none =
      DispatchOut.ok ⟨"2.0", some rawNull, none, some ⟨-32603, "custom error", none⟩⟩) :=
  ⟨(c3_user_error_mapping
      ⟨"bad", false, 0, [], none, true, false,
        fun _ => ⟨none, ErrOut.iface (some (GoError.rpc (some ⟨101, "This endpoint is bad.", none⟩)))⟩⟩
      (some rawNull) none rfl rfl rfl).1 _ rfl,
   (c3_user_error_mapping
      ⟨"error", false, 0, [], none, true, false,
        fun _ => ⟨none, ErrOut.iface (some (GoError.other "custom error"))⟩⟩
      (some rawNull) none rfl rfl rfl).2.2 "custom error" rfl⟩

/-- C7: When unmarshalling positional argument `i` fails (all earlier slots
succeeding), the call returns −32602 with message `{name}: {json error}` and
`data` equal to the original raw bytes of argument `i`, and the response
carries that error verbatim. -/
theorem c7_unmarshal_data_preserved (m : Method) (reqID : jsonrpcID) (params : Option Jval)
    (i : Nat) (msg : String)
    (harity : arityOkB m (bindArgs params) = true)
    (hlt : i < (bindArgs params).length)
    (hok : ∀ j, j < i → (m.argType j).unmarshal ((bindArgs params).getD j []) = Except.ok ())
    (hfail : (m.argType i).unmarshal ((bindArgs params).getD i []) = Except.error msg) :
    m.call params = Except.error (GoError.rpc (some
      ⟨-32602, m.name ++ ": " ++ msg, some ((bindArgs params).getD i [])⟩)) ∧
    requestCall m reqID params = DispatchOut.ok
      ⟨"2.0", reqID, none,
        some ⟨-32602, m.name ++ ": " ++ msg, some ((bindArgs params).getD i [])⟩⟩ := by
  have hloop : unmarshalArgs m 0 (bindArgs params) = Except.error (i, msg) := by
    have := unmarshalArgs_first_fail m (bindArgs params) 0 i msg hlt
      (fun j hj => by simpa using hok j hj) (by simpa using hfail)
    simpa using this
  have hcall : m.call params = Except.error (GoError.rpc (some
      ⟨-32602, m.name ++ ": " ++ msg, some ((bindArgs params).getD i [])⟩)) := by
    rw [call_eq_callBound m params harity]
    unfold Method.callBound
    rw [hloop]
  refine ⟨hcall, ?_⟩
  unfold requestCall
  rw [hcall]

/-- C7 witness: the test suite's `chan` method, whose single parameter type
cannot unmarshal a JSON string; the error data is the raw string bytes. -/
theorem c7_unmarshal_data_preserved_witness :
    Method.call
      ⟨"chan", false, 1,
        [⟨false, false, fun _ =>
          Except.error "json: cannot unmarshal string into Go value of type chan int"⟩],
        none, false, false, fun _ => ⟨none, ErrOut.iface none⟩⟩
      (some (Jval.str "Hello world!".toList)) =
    Except.error (GoError.rpc (some
      ⟨-32602, "chan: json: cannot unmarshal string into Go value of type chan int",
        some ('"' :: ("Hello world!".toList ++ ['"']))⟩)) :=
  (c7_unmarshal_data_preserved
    ⟨"chan", false, 1,
      [⟨false, false, fun _ =>
        Except.error "json: cannot unmarshal string into Go value of type chan int"⟩],
      none, false, false, fun _ => ⟨none, ErrOut.iface none⟩⟩
    (some rawNull) (some (Jval.str "Hello world!".toList)) 0
    "json: cannot unmarshal string into Go value of type chan int"
    rfl (by decide) (fun j hj => absurd hj (Nat.not_lt_zero j)) rfl).1

/-- C5: Binding of `params` to positional arguments: an absent or null
params yields no arguments; an array yields its elements as positional raw
arguments; any other (well-formed) value is re-wrapped as the single
argument carrying its original raw bytes — so a unary method receives it as
its sole argument. -/
theorem c5_params_binding :
    (bindArgs none = [] ∧ bindArgs (some Jval.null) = []) ∧
    (∀ es, bindArgs (some (Jval.arr es)) = es.map rawOf) ∧
    (∀ v : Jval, v.wfB = true → v ≠ Jval.null → (∀ es, v ≠ Jval.arr es) →
      bindArgs (some v) = [rawOf v]) ∧
    (∀ (m : Method) (v : Jval), m.nargs = 1 → m.variadic = none → v.wfB = true →
      v ≠ Jval.null → (∀ es, v ≠ Jval.arr es) →
      m.call (some v) = m.callBound [rawOf v]) := by
  have harr : ∀ es, bindArgs (some (Jval.arr es)) = es.map rawOf := by
    intro es
    have hcond : (rawOf (Jval.arr es)).length > 0 ∧ rawOf (Jval.arr es) ≠ rawNull := by
      constructor
      · simp [rawOf]
      · simp [rawOf, rawNull]
    simp only [bindArgs]
    rw [if_pos hcond]
    simp [unmarshalRawSlice]
  have hscalar : ∀ v : Jval, v.wfB = true → v ≠ Jval.null → (∀ es, v ≠ Jval.arr es) →
      bindArgs (some v) = [rawOf v] := by
    intro v hw hn ha
    have hcond : (rawOf v).length > 0 ∧ rawOf v ≠ rawNull :=
      ⟨List.length_pos.mpr (rawOf_ne_nil hw), rawOf_ne_rawNull hw hn⟩
    have hum : unmarshalRawSlice v = none := by
      cases v with
      | null => exact absurd rfl hn
      | arr es => exact absurd rfl (ha es)
      | bool b => rfl
      | num ds => rfl
      | str s => rfl
      | obj fs => rfl
    simp only [bindArgs]
    rw [if_pos hcond, hum]
  refine ⟨⟨rfl, by decide⟩, harr, hscalar, ?_⟩
  intro m v hn hv hw hnull harrv
  have hb := hscalar v hw hnull harrv
  unfold Method.call
  rw [hv, hb]
  simp [hn]

/-- C5 witness: the binding clauses evaluated at concrete params values, and
a concrete unary method receiving a bare string as its sole argument. -/
theorem c5_params_binding_witness :
    bindArgs (some (Jval.arr [Jval.num ['1'], Jval.str ['x']])) =
      [['1'], '"' :: ("x".toList ++ ['"'])] ∧
    bindArgs (some (Jval.str "Hi".toList)) = ['"' :: ("Hi".toList ++ ['"'])] ∧
    Method.call
      ⟨"echo", false, 1, [plainType], none, false, true, fun _ => ⟨none, ErrOut.iface none⟩⟩
      (some (Jval.str "Hi".toList)) =
    Method.callBound
      ⟨"echo", false, 1, [plainType], none, false, true, fun _ => ⟨none, ErrOut.iface none⟩⟩
      ['"' :: ("Hi".toList ++ ['"'])] :=
  ⟨c5_params_binding.2.1 [Jval.num ['1'], Jval.str ['x']],
   c5_params_binding.2.2.1 (Jval.str "Hi".toList) rfl
     (fun h => Jval.noConfusion h) (fun _ h => Jval.noConfusion h),
   c5_params_binding.2.2.2
     ⟨"echo", false, 1, [plainType], none, false, true, fun _ => ⟨none, ErrOut.iface none⟩⟩
     (Jval.str "Hi".toList) rfl rfl rfl
     (fun h => Jval.noConfusion h) (fun _ h => Jval.noConfusion h)⟩

/-- C10: A registered function with exactly one return value whose type
implements the error interface gets `hasError` set and `hasResponse` clear;
a successful call of it (nil error) yields a nil result, serialized as the
member `result` with value `null`. -/
theorem c10_single_error_return (name : String) (fn : FnShape)
    (impl : List (List Char) → FnBehavior) (t : GoType) (m : Method)
    (reqID : jsonrpcID) (params : Option Jval)
    (hfn : fn.isFunc = true) (houts : fn.outs = [t]) (himplerr : t.implementsError = true)
    (hnm : newMethod name fn impl = Except.ok m)
    (harity : arityOkB m (bindArgs params) = true)
    (hunm : unmarshalArgs m 0 (bindArgs params) = Except.ok ())
    (hnil : (m.impl (bindArgs params)).errOut.IsNil = true) :
    m.hasError = true ∧ m.hasResponse = false ∧
    requestCall m reqID params = DispatchOut.ok ⟨"2.0", reqID, none, none⟩ ∧
    lookupKey "result" (emitResponse ⟨"2.0", reqID, none, none⟩) = some rawNull := by
  unfold newMethod at hnm
  rw [hfn] at hnm
  simp only [houts] at hnm
  norm_num [himplerr] at hnm
  obtain ⟨he, hr⟩ : m.hasError = true ∧ m.hasResponse = false := by
    rw [← hnm]
    exact ⟨rfl, rfl⟩
  refine ⟨he, hr, ?_, ?_⟩
  · unfold requestCall
    rw [call_eq_callBound m params harity]
    unfold Method.callBound
    rw [hunm]
    simp [hnil, he, hr]
  · simp [emitResponse, encodeFullResponse, lookupKey]

/-- C10 witness: a function shaped like `func() error` with a nil error
return; the descriptor and the resulting null `result`. -/
theorem c10_single_error_return_witness :
    (Method.hasError ⟨"ping", false, 0, [], none, true, false,
      fun _ => ⟨none, ErrOut.iface none⟩⟩ = true) ∧
    (Method.hasResponse ⟨"ping", false, 0, [], none, true, false,
      fun _ => ⟨none, ErrOut.iface none⟩⟩ = false) ∧
    requestCall ⟨"ping", false, 0, [], none, true, false,
      fun _ => ⟨none, ErrOut.iface none⟩⟩ (some ['7']) none =
      DispatchOut.ok ⟨"2.0", some ['7'], none, none⟩ ∧
    lookupKey "result" (emitResponse ⟨"2.0", some ['7'], none, none⟩) = some rawNull :=
  c10_single_error_return "ping" ⟨true, [], false, plainType,
      [⟨false, true, fun _ => Except.ok ()⟩]⟩
    (fun _ => ⟨none, ErrOut.iface none⟩) ⟨false, true, fun _ => Except.ok ()⟩
    ⟨"ping", false, 0, [], none, true, false, fun _ => ⟨none, ErrOut.iface none⟩⟩
    (some ['7']) none rfl rfl rfl rfl rfl rfl rfl

/-- Decoding a request whose id member is present with a recognized shape
stores the id's raw bytes in the carrier. -/
theorem goDecode_decoded_some (r : RawRequest) (v : Jval) (hid : r.id = some v)
    (hrec : recognizedIDShape v = true) :
    goDecode (DecodeResult.decoded r) =
      Except.ok ⟨r.protocol, some (rawOf v), r.method, r.params⟩ := by
  simp [goDecode, hid, idUnmarshalJSON, hrec]

/-- Decoding a request whose id member is absent leaves the carrier nil. -/
theorem goDecode_decoded_none (r : RawRequest) (hid : r.id = none) :
    goDecode (DecodeResult.decoded r) =
      Except.ok ⟨r.protocol, none, r.method, r.params⟩ := by
  simp [goDecode, hid]

/-- After a successful decode, `decodeRequest` reports more values, echoes
the id carrier into the response, and either records a protocol error or
binds a method. -/
theorem decodeRequest_ok (reg : Registry) (d0 : DecodeResult) (d : DecodedReq)
    (hgd : goDecode d0 = Except.ok d) :
    ∃ st : ReqState, decodeRequest reg d0 = (true, st) ∧ st.res.protocol = "2.0" ∧
      st.res.id = d.id ∧ st.id = d.id ∧ st.params = d.params ∧
      (st.res.error = none → st.m ≠ none) := by
  unfold decodeRequest
  rw [hgd]
  by_cases hp : d.protocol ≠ "2.0"
  · refine ⟨⟨⟨"2.0", d.id, none,
      some ⟨-32600, "Invalid protocol: expected jsonrpc: 2.0", none⟩⟩, none, d.id, d.params⟩,
      ?_, rfl, rfl, rfl, rfl, ?_⟩
    · simp [hp]
    · intro he; exact absurd he (by simp)
  · cases hl : lookupMethod reg d.method with
    | none =>
      refine ⟨⟨⟨"2.0", d.id, none,
        some ⟨-32601, "No such method: " ++ d.method, none⟩⟩, none, d.id, d.params⟩,
        ?_, rfl, rfl, rfl, rfl, ?_⟩
      · simp [hp, hl]
      · intro he; exact absurd he (by simp)
    | some mm =>
      refine ⟨⟨⟨"2.0", d.id, none, none⟩, some mm, d.id, d.params⟩,
        ?_, rfl, rfl, rfl, rfl, ?_⟩
      · simp [hp, hl]
      · intro _; simp

/-- After a successful decode of one request, both the HTTP pipeline and the
stream worker either panic or emit based on a response that echoes the
decoded id carrier: no body and 204 (resp. silence) iff the carrier is nil,
otherwise a 200 reply (resp. a frame) encoding that response. -/
theorem serveDecoded_ok (reg : Registry) (r : RawRequest) (d : DecodedReq)
    (hgd : goDecode (DecodeResult.decoded r) = Except.ok d) :
    (serveDecoded reg (DecodeResult.decoded r) = HttpOut.panicked ∨
      ∃ res : Resp, res.protocol = "2.0" ∧ res.id = d.id ∧
        serveDecoded reg (DecodeResult.decoded r) =
          (if res.id = none then HttpOut.reply 204 none
           else HttpOut.reply 200 (some (emitResponse res)))) ∧
    (serveConnStep reg (DecodeResult.decoded r) = ConnOut.panicked ∨
      ∃ res : Resp, res.protocol = "2.0" ∧ res.id = d.id ∧
        serveConnStep reg (DecodeResult.decoded r) =
          (if res.id = none then ConnOut.silent
           else ConnOut.send (emitResponse res))) := by
  obtain ⟨st, hdq, hproto, hresid, hid2, hpar, himpl⟩ := decodeRequest_ok reg _ d hgd
  by_cases he : st.res.error = none
  · cases hm : st.m with
    | none => exact absurd hm (himpl he)
    | some mm =>
      rcases requestCall_shape mm st.id st.params with hpk | ⟨result, error2, hok⟩
      · constructor
        · left
          simp [serveDecoded, hdq, he, dispatch, hm, hpk]
        · left
          simp [serveConnStep, hdq, he, dispatch, hm, hpk]
      · constructor
        · right
          refine ⟨⟨"2.0", st.id, result, error2⟩, rfl, hid2, ?_⟩
          simp [serveDecoded, hdq, he, dispatch, hm, hok]
        · right
          refine ⟨⟨"2.0", st.id, result, error2⟩, rfl, hid2, ?_⟩
          simp [serveConnStep, hdq, he, dispatch, hm, hok]
  · constructor
    · right
      refine ⟨st.res, hproto, hresid, ?_⟩
      simp [serveDecoded, hdq, he]
    · right
      refine ⟨st.res, hproto, hresid, ?_⟩
      simp [serveConnStep, hdq, he]

/-- C1: For every gated HTTP request whose decoded id member has a
recognized shape (string, number or null), the emitted response's id member
is byte-for-byte the received id bytes; for every request whose id member is
absent, the HTTP adapter replies 204 with no body and the stream server
emits no frame at all. -/
theorem c1_id_round_trip (reg : Registry) (hr : HttpRequest) (r : RawRequest)
    (hct : hr.contentType = "application/json") (hmeth : hr.method = "POST")
    (hb : hr.body = DecodeResult.decoded r) :
    (∀ v, r.id = some v → recognizedIDShape v = true →
      serveHTTP reg hr ≠ HttpOut.panicked →
      ∃ b, serveHTTP reg hr = HttpOut.reply 200 (some b) ∧
        lookupKey "id" b = some (rawOf v)) ∧
    (r.id = none →
      (serveHTTP reg hr ≠ HttpOut.panicked → serveHTTP reg hr = HttpOut.reply 204 none) ∧
      (serveConnStep reg hr.body).emitted = none) := by
  have hgate : serveHTTP reg hr = serveDecoded reg (DecodeResult.decoded r) := by
    simp [serveHTTP, hct, hmeth, hb]
  constructor
  · intro v hid hrec hnp
    have hgd := goDecode_decoded_some r v hid hrec
    obtain ⟨hhttp, _⟩ := serveDecoded_ok reg r _ hgd
    rcases hhttp with hpk | ⟨res, hproto, hresid, heq⟩
    · rw [hgate] at hnp
      exact absurd hpk hnp
    · have hsome : res.id = some (rawOf v) := hresid
      rw [hgate, heq, if_neg (by simp [hsome])]
      exact ⟨emitResponse res, rfl, by rw [lookupKey_id_emit, hsome]; rfl⟩
  · intro hid
    have hgd := goDecode_decoded_none r hid
    obtain ⟨hhttp, hconn⟩ := serveDecoded_ok reg r _ hgd
    constructor
    · intro hnp
      rcases hhttp with hpk | ⟨res, hproto, hresid, heq⟩
      · rw [hgate] at hnp
        exact absurd hpk hnp
      · rw [hgate, heq, if_pos hresid]
    · rw [hb]
      rcases hconn with hpk | ⟨res, hproto, hresid, heq⟩
      · rw [hpk]
        rfl
      · rw [heq, if_pos hresid]
        rfl

/-- C1 witness: a notification (absent id) against an empty registry is
answered 204 with no body over HTTP and produces no frame on the stream. -/
theorem c1_id_round_trip_witness :
    serveHTTP [] ⟨"POST", "application/json",
      DecodeResult.decoded ⟨"2.0", none, "echo", some (Jval.str "Hi".toList)⟩⟩ =
      HttpOut.reply 204 none ∧
    (serveConnStep []
      (DecodeResult.decoded ⟨"2.0", none, "echo", some (Jval.str "Hi".toList)⟩)).emitted =
      none := by
  have h := (c1_id_round_trip [] ⟨"POST", "application/json",
      DecodeResult.decoded ⟨"2.0", none, "echo", some (Jval.str "Hi".toList)⟩⟩
      ⟨"2.0", none, "echo", some (Jval.str "Hi".toList)⟩ rfl rfl rfl).2 rfl
  exact ⟨h.1 (by decide), h.2⟩

end Jsonrpc
